import Mathlib

/-!
Verification development for the involute gear rack generator
(`src/freecad/gears/involutegearrack.py`, `InvoluteGearRack.generate_gear_shape`).

The 2-D tooth geometry lives in the (height, pitch) plane: every point is a
pair `(y, x)` with the height axis first and the pitch axis second, exactly as
the source emits `np.array([y, x])`.  Edges of the boundary representation are
either straight segments or fillet arcs; the geometry kernel (FreeCAD `Part`)
is modelled by the `Shape` constructors that record the arguments of the
kernel calls the source makes.
-/

open Real

namespace GearRack

/-- A 2-D point `(y, x)`: height coordinate first, pitch coordinate second. -/
abbrev Point : Type := ℝ × ℝ

/-- An edge of the decomposed wire: a straight segment between two points, or
a fillet arc of a given radius inserted at a corner.  The kernel's exact arc
geometry is external; the model records the radius and the corner at which the
arc was inserted (so both endpoints of the arc coincide with the corner). -/
inductive Edge where
  | line (p q : Point)
  | arc (radius : ℝ) (corner : Point)

instance : Inhabited Edge := ⟨Edge.line ((0 : ℝ), (0 : ℝ)) ((0 : ℝ), (0 : ℝ))⟩

/-- First vertex of an edge (`edge.firstVertex().Point` in the source). -/
def Edge.firstVertex : Edge → Point
  | .line p _ => p
  | .arc _ c => c

/-- Last vertex of an edge (`edge.lastVertex().Point` in the source). -/
def Edge.lastVertex : Edge → Point
  | .line _ q => q
  | .arc _ c => c

/-- Translate an edge by a 2-D vector (`shape.translate(vector)`). -/
def Edge.translate (v : Point) : Edge → Edge
  | .line p q => .line (p + v) (q + v)
  | .arc r c => .arc r (c + v)

/-- Squared length of a straight segment (0 for an arc placeholder); used by
the fillet feasibility check. -/
def Edge.sqLen : Edge → ℝ
  | .line p q => (q.1 - p.1) ^ 2 + (q.2 - p.2) ^ 2
  | .arc _ _ => 0

/-- Error taxonomy of the spec (section 7). -/
inductive GearError where
  | InvalidParameterError
  | GeometricConstraintError
  deriving DecidableEq

/-- The pygears `InvoluteRack` parameter object stored in the host property
`obj.rack`; the build overwrites its fields from the parameter snapshot
(source lines 200-214). -/
structure RackState where
  m : ℝ
  z : ℕ
  pressure_angle : ℝ
  thickness : ℝ
  beta : ℝ
  head : ℝ
  clearance : ℝ
  properties_from_tool : Bool
  add_endings : Bool
  simplified : Bool

/-- The host parameter record (the FreeCAD document object): the stored
parameter snapshot, the read-only computed `transverse_pitch`, and the
persistent `rack` helper object.  Angles are stored in degrees, as at the
public property interface. -/
structure ObjState where
  num_teeth : ℕ
  height : ℝ
  module : ℝ
  thickness : ℝ
  pressure_angle : ℝ
  helix_angle : ℝ
  head : ℝ
  clearance : ℝ
  head_fillet : ℝ
  root_fillet : ℝ
  simplified : Bool
  properties_from_tool : Bool
  double_helix : Bool
  add_endings : Bool
  transverse_pitch : ℝ
  rack : RackState

/-- Modelled from the spec: `insert_fillet` of `basegear.py` is not under
`src/`; the spec (sections 4.3 and 6) fixes its interface: it works on the
decomposed edge array, inserts between `edges[pos]` and `edges[pos+1]` either
a fillet arc of the given radius (radius > 0) or a `None` placeholder
(radius = 0, the corner stays sharp), and fails with
`GeometricConstraintError` when the radius is geometrically infeasible for
the segment lengths involved. -/
noncomputable def insert_fillet (edges : List (Option Edge)) (pos : ℕ)
    (radius : ℝ) : Except GearError (List (Option Edge)) :=
  match edges[pos]?, edges[pos + 1]? with
  | some (some e1), some (some e2) =>
    if radius = 0 then
      .ok (edges.take (pos + 1) ++ [none] ++ edges.drop (pos + 1))
    else if 0 < radius ∧ radius ^ 2 ≤ e1.sqLen ∧ radius ^ 2 ≤ e2.sqLen then
      .ok (edges.take (pos + 1) ++ [some (.arc radius e1.lastVertex)] ++
        edges.drop (pos + 1))
    else
      .error .GeometricConstraintError
  | _, _ => .error .GeometricConstraintError

/-- Modelled from the spec: `pygears` `InvoluteRack.compute_properties` is not
under `src/`.  The spec fixes: with `properties_from_tool` disabled the
module and pressure angle are unchanged and `transverse_pitch = module × π`
(sections 3 and 8); with it enabled the standard transverse correction for the
helix angle it delegates to (section 4.2) rescales the module by `cos β` and
the pressure angle accordingly.  Returns `(m, m_n, pitch, pressure_angle_t)`
as unpacked at source line 216. -/
noncomputable def compute_properties (r : RackState) : ℝ × ℝ × ℝ × ℝ :=
  if r.properties_from_tool then
    (r.m / Real.cos r.beta, r.m, r.m / Real.cos r.beta * π,
      Real.arctan (Real.tan r.pressure_angle / Real.cos r.beta))
  else
    (r.m, r.m, r.m * π, r.pressure_angle)

/-- Source lines 200-214: the build copies the parameter snapshot into the
persistent `obj.rack` object, converting the stored degree angles to radians.
The backward-compatibility `in obj.PropertiesList` checks always succeed for
a current object, so the assignments are unconditional here. -/
noncomputable def rackFromObj (obj : ObjState) : RackState where
  m := obj.module
  z := obj.num_teeth
  pressure_angle := obj.pressure_angle * π / 180
  thickness := obj.thickness
  beta := obj.helix_angle * π / 180
  head := obj.head
  clearance := obj.clearance
  properties_from_tool := obj.properties_from_tool
  add_endings := obj.add_endings
  simplified := obj.simplified

/-- The effective module `m` unpacked from `compute_properties` at source
line 216 and used by all following geometry. -/
noncomputable def buildM (obj : ObjState) : ℝ :=
  (compute_properties (rackFromObj obj)).1

/-- The pitch written to `transverse_pitch` at source line 217. -/
noncomputable def buildPitch (obj : ObjState) : ℝ :=
  (compute_properties (rackFromObj obj)).2.2.1

/-- Source line 221: the flank-slope angle is recomputed from the stored
degree value, `alpha = obj.pressure_angle.Value * np.pi / 180`. -/
noncomputable def buildAlpha (obj : ObjState) : ℝ :=
  obj.pressure_angle * π / 180

/-- Source lines 224-241: the six raw tooth vertices, each emitted as the
pair `(y, x)` (height axis first, pitch axis second). -/
noncomputable def toothPoints (m c h alpha : ℝ) : List Point :=
  let x1 := -m * π / 2
  let y1 := -m * (1 + c)
  let y2 := y1
  let x2 := -m * π / 4 + y2 * Real.tan alpha
  let y3 := m * (1 + h)
  let x3 := -m * π / 4 + y3 * Real.tan alpha
  let x4 := -x3
  let x5 := -x2
  let x6 := -x1
  let y4 := y3
  let y5 := y2
  let y6 := y1
  [(y1, x1), (y2, x2), (y3, x3), (y4, x4), (y5, x5), (y6, x6)]

/-- Modelled from the spec: `points_to_wire` of `basegear.py` is not under
`src/`; per the `make_wire` capability (section 6) it turns a sequence of
point-pair segments into the wire made of those straight segments. -/
def points_to_wire (segs : List (Point × Point)) : List Edge :=
  segs.map fun s => .line s.1 s.2

/-- Source lines 242-247: the raw tooth wire, five straight segments
connecting the six vertices in order. -/
noncomputable def rawTooth (m c h alpha : ℝ) : List Edge :=
  let ps := toothPoints m c h alpha
  points_to_wire (ps.zip ps.tail)

/-- The raw tooth wire of a build, with the effective module of
`compute_properties` and the flank angle of source line 221. -/
noncomputable def buildRawTooth (obj : ObjState) : List Edge :=
  rawTooth (buildM obj) obj.clearance obj.head (buildAlpha obj)

/-- Source lines 249-253: fillet insertion into the decomposed edge array at
positions 0, 2, 4, 6 with radii `m * root_fillet` at the root corners and
`m * head_fillet` at the head corners. -/
noncomputable def filletedTooth (m root_fillet head_fillet : ℝ)
    (tooth : List Edge) : Except GearError (List (Option Edge)) := do
  let e0 ← insert_fillet (tooth.map some) 0 (m * root_fillet)
  let e1 ← insert_fillet e0 2 (m * head_fillet)
  let e2 ← insert_fillet e1 4 (m * head_fillet)
  insert_fillet e2 6 (m * root_fillet)

/-- Source lines 256-260: the single-tooth unit, built from the `None`-free
chain by dropping its first and last edges and appending the bridge edge from
`tooth_edges[-2].lastVertex()` to `tooth_edges[1].firstVertex()` advanced by
one pitch along the pitch axis. -/
noncomputable def toothUnit (tooth_edges : List Edge) (m : ℝ) : List Edge :=
  let p_end := (tooth_edges.getD (tooth_edges.length - 2) default).lastVertex
  let p_start := (tooth_edges.getD 1 default).firstVertex + ((0 : ℝ), π * m)
  (tooth_edges.drop 1).dropLast ++ [.line p_end p_start]

/-- Source lines 261-267: the replication loop; each iteration copies the
previous tooth and translates it by one pitch, appending it to the list. -/
noncomputable def buildTeeth (t0 : List Edge) (v : Point) : ℕ → List (List Edge)
  | 0 => [t0]
  | n + 1 =>
    let prev := buildTeeth t0 v n
    prev ++ [(prev.getLastD []).map (Edge.translate v)]

/-- Source line 268: the final replica loses its trailing bridge edge. -/
def dropBridge (teeth : List (List Edge)) : List (List Edge) :=
  teeth.dropLast ++ [(teeth.getLastD []).dropLast]

/-- Source lines 270-274: with `add_endings` the original chain's first edge
is prepended and its last edge, translated to the far end, is appended. -/
noncomputable def withEndings (add_endings : Bool) (tooth_edges : List Edge)
    (m : ℝ) (num_teeth : ℕ) (teeth : List (List Edge)) : List (List Edge) :=
  if add_endings then
    [[tooth_edges.getD 0 default]] ++ teeth ++
      [[(tooth_edges.getLastD default).translate
        ((0 : ℝ), π * m * ((num_teeth : ℝ) - 1))]]
  else
    teeth

/-- Source lines 276-285: the base strip closing the rack below the teeth,
from the outline's start point down by `thickness`, across, and back up to
the outline's end point. -/
noncomputable def bottomStrip (teeth : List (List Edge)) (t : ℝ) : List Edge :=
  let p_start := ((teeth.headD []).headD default).firstVertex
  let p_end := ((teeth.getLastD []).getLastD default).lastVertex
  let p_start_1 := p_start - ((t : ℝ), (0 : ℝ))
  let p_end_1 := p_end - ((t : ℝ), (0 : ℝ))
  points_to_wire [(p_start, p_start_1), (p_start_1, p_end_1), (p_end_1, p_end)]

/-- Source lines 255-287, the pure tail of the outline construction after the
fallible fillet stage: `None` removal, tooth unit, tiling, optional endings,
and closure by the base strip into `pol = part.Wire([bottom] + teeth)`. -/
noncomputable def outlineFrom (obj : ObjState) (edges : List (Option Edge)) :
    List Edge :=
  let m := buildM obj
  let tooth_edges := edges.filterMap id
  let unit := toothUnit tooth_edges m
  let teeth := dropBridge (buildTeeth unit ((0 : ℝ), π * m) (obj.num_teeth - 1))
  let teeth := withEndings obj.add_endings tooth_edges m obj.num_teeth teeth
  bottomStrip teeth obj.thickness ++ teeth.flatten

/-- Source lines 218-287: the closed 2-D rack outline, or the fillet stage's
error. -/
noncomputable def buildOutline (obj : ObjState) : Except GearError (List Edge) :=
  (filletedTooth (buildM obj) obj.root_fillet obj.head_fillet
    (buildRawTooth obj)).map (outlineFrom obj)

/-- Result of the solid-generation case split: the plain 2-D outline, a flat
extrusion by a height, or a loft through profiles.  A loft profile is the
translated 2-D outline wire paired with its height along the third axis; the
two booleans record the `solid` and `ruled` arguments of `part.makeLoft`
(whose signature is `makeLoft(shapes, solid=False, ruled=False)`). -/
inductive Shape where
  | outline (pol : List Edge)
  | extrusion (pol : List Edge) (height : ℝ)
  | loft (profiles : List (List Edge × ℝ)) (solid ruled : Bool)

/-- Source lines 289-307: the terminal case split on
(`height`, `helix_angle`, `double_helix`). -/
noncomputable def makeSolid (obj : ObjState) (pol : List Edge) : Shape :=
  let beta := (rackFromObj obj).beta
  if obj.height = 0 then
    .outline pol
  else if beta = 0 then
    .extrusion pol obj.height
  else if obj.double_helix then
    .loft [(pol, 0),
      (pol.map (Edge.translate ((0 : ℝ), Real.tan beta * obj.height / 2)),
        obj.height / 2),
      (pol, obj.height)] true true
  else
    .loft [(pol, 0),
      (pol.map (Edge.translate ((0 : ℝ), Real.tan beta * obj.height)),
        obj.height)] true false

/-- Source lines 199-307: the whole build.  It returns the updated host state
(the `obj.rack` fields and `transverse_pitch` are overwritten before any
geometry is attempted, lines 200-217) together with the geometric result or
the propagated error.  The `obj.rack._update()` call of line 215 belongs to
the external pygears object; per spec section 4.1 a recompute only derives
values, so it is modelled as leaving the stored inputs unchanged, with the
derived quantities read through `compute_properties`. -/
noncomputable def generate_gear_shape (obj : ObjState) :
    ObjState × Except GearError Shape :=
  let obj1 := { obj with rack := rackFromObj obj,
                         transverse_pitch := buildPitch obj }
  (obj1, (buildOutline obj).map (makeSolid obj))

/-- A concrete `obj.rack` value for sample builds (fields as after some
earlier build of the default parameters). -/
noncomputable def demoRack : RackState where
  m := 1
  z := 15
  pressure_angle := 0
  thickness := 5
  beta := 0
  head := 0
  clearance := 1 / 4
  properties_from_tool := false
  add_endings := true
  simplified := false

/-- A concrete parameter snapshot close to the documented defaults
(`module = 1 mm`, 15 teeth, `clearance = 0.25`, no fillets), with a zero
pressure angle to keep the sample geometry rational in `π`. -/
noncomputable def demoObj : ObjState where
  num_teeth := 15
  height := 5
  module := 1
  thickness := 5
  pressure_angle := 0
  helix_angle := 0
  head := 0
  clearance := 1 / 4
  head_fillet := 0
  root_fillet := 0
  simplified := false
  properties_from_tool := false
  double_helix := false
  add_endings := true
  transverse_pitch := 0
  rack := demoRack

/-- A state whose persistent `obj.rack` disagrees with the parameter
snapshot, as it does whenever parameters were edited since the last build. -/
noncomputable def staleRackObj : ObjState :=
  { demoObj with rack := { demoRack with m := 7 } }

/-- A list of edges forms a continuous chain: each edge starts where the
previous one ends. -/
def chainConnected (l : List Edge) : Prop :=
  l.Chain' fun e f => e.lastVertex = f.firstVertex

/-- The filleted edge array of the sample build: both fillet factors are 0,
so the four corner slots hold `None` placeholders. -/
noncomputable def demoFilleted : List (Option Edge) :=
  let E := buildRawTooth demoObj
  [some (E.getD 0 default), none, some (E.getD 1 default), none,
   some (E.getD 2 default), none, some (E.getD 3 default), none,
   some (E.getD 4 default)]

/-- The tooth chain of the spec (section 4.4): the filleted `None`-free edge
list with its first and last edges dropped. -/
def toothChain (tooth_edges : List Edge) : List Edge :=
  (tooth_edges.drop 1).dropLast

/-- The bridging edge of the spec (section 4.4): from the chain's last vertex
to the chain's first vertex advanced by one pitch `π × m` along the pitch
axis. -/
noncomputable def bridgeEdge (tooth_edges : List Edge) (m : ℝ) : Edge :=
  .line ((toothChain tooth_edges).getLastD default).lastVertex
    (((toothChain tooth_edges).headD default).firstVertex + ((0 : ℝ), π * m))

/-- The tooth list produced by the replication loop of source lines 261-267
for a build, before the trailing bridge edge of the last replica is
dropped. -/
noncomputable def preTeeth (obj : ObjState) (tooth_edges : List Edge) :
    List (List Edge) :=
  buildTeeth (toothUnit tooth_edges (buildM obj))
    ((0 : ℝ), π * buildM obj) (obj.num_teeth - 1)

/-- The filleted edge array of any build with both fillet factors 0. -/
noncomputable def zeroFilleted (obj : ObjState) : List (Option Edge) :=
  let E := buildRawTooth obj
  [some (E.getD 0 default), none, some (E.getD 1 default), none,
   some (E.getD 2 default), none, some (E.getD 3 default), none,
   some (E.getD 4 default)]

/-- A single-helix build: default parameters with a 45 degree helix angle. -/
noncomputable def heliObj : ObjState :=
  { demoObj with helix_angle := 45 }

/-- The outline of the single-helix sample build. -/
noncomputable def heliPol : List Edge := outlineFrom heliObj (zeroFilleted heliObj)

/-- Extracts, from a build result that is a loft, the number of profiles and
the `solid` and `ruled` flags passed to the kernel's loft operation. -/
noncomputable def resultLoftFlags (obj : ObjState) : Option (ℕ × Bool × Bool) :=
  match (generate_gear_shape obj).2 with
  | .ok (.loft ps s r) => some (ps.length, s, r)
  | _ => none

/-- A double-helix build: default parameters with a 45 degree helix angle
and `double_helix` enabled. -/
noncomputable def heliDoubleObj : ObjState :=
  { demoObj with helix_angle := 45, double_helix := true }

/-- A build doomed to fail: the root fillet factor is a million, so the
fillet radius vastly exceeds the adjacent segment lengths; the previously
stored `transverse_pitch` is 99. -/
noncomputable def bigFilletObj : ObjState :=
  { demoObj with root_fillet := 1000000, transverse_pitch := 99 }

/-- All vertices of a wire, in order (each edge contributes its first and
last vertex). -/
def vertices (pol : List Edge) : List Point :=
  (pol.map fun e => [e.firstVertex, e.lastVertex]).flatten

/-- The pitch-axis coordinates of a wire's vertices. -/
def pitchList (pol : List Edge) : List ℝ :=
  (vertices pol).map Prod.snd

/-- Total pitch-axis extent of a wire: the difference between the largest
and the smallest pitch coordinate over all its vertices. -/
noncomputable def pitchExtent (pol : List Edge) : ℝ :=
  (pitchList pol).foldr max ((pitchList pol).headD 0) -
    (pitchList pol).foldr min ((pitchList pol).headD 0)

/-- The tiled and capped teeth wires of the build, as assembled at source
lines 256-274: the dropped-bridge tiling wrapped by `withEndings`. -/
noncomputable def outlineTeeth (obj : ObjState) (es : List (Option Edge)) :
    List (List Edge) :=
  withEndings obj.add_endings (es.filterMap id) (buildM obj) obj.num_teeth
    (dropBridge (preTeeth obj (es.filterMap id)))

lemma buildM_eq (obj : ObjState) (h : obj.properties_from_tool = false) :
    buildM obj = obj.module := by
  simp [buildM, compute_properties, rackFromObj, h]

lemma buildPitch_eq (obj : ObjState) (h : obj.properties_from_tool = false) :
    buildPitch obj = obj.module * π := by
  simp [buildPitch, compute_properties, rackFromObj, h]

/-- C1: with the module of the build (`properties_from_tool` disabled, so the
effective module is the `module` parameter), the raw tooth profile is exactly
the six vertices `x1 = -m·π/2, y1 = -m(1+c), x2 = -m·π/4 + y1·tan α, y2 = y1,
x3 = -m·π/4 + y3·tan α, y3 = m(1+h), x4 = -x3, y4 = y3, x5 = -x2, y5 = y2,
x6 = -x1, y6 = y1`, each emitted as the pair `(y, x)` (height axis first),
connected in order by five straight segments. -/
theorem C1_raw_tooth_profile (obj : ObjState)
    (hpft : obj.properties_from_tool = false) (_hm : 0 < obj.module) :
    buildRawTooth obj =
      (let m := obj.module
       let alpha := obj.pressure_angle * π / 180
       let x1 := -m * π / 2
       let y1 := -m * (1 + obj.clearance)
       let x2 := -m * π / 4 + y1 * Real.tan alpha
       let y3 := m * (1 + obj.head)
       let x3 := -m * π / 4 + y3 * Real.tan alpha
       [Edge.line (y1, x1) (y1, x2), Edge.line (y1, x2) (y3, x3),
        Edge.line (y3, x3) (y3, -x3), Edge.line (y3, -x3) (y1, -x2),
        Edge.line (y1, -x2) (y1, -x1)]) := by
  simp [buildRawTooth, buildM_eq obj hpft, rawTooth, toothPoints,
    points_to_wire, buildAlpha]

lemma rawTooth_eq (m c h alpha : ℝ) :
    rawTooth m c h alpha =
      [Edge.line (-m * (1 + c), -m * π / 2)
         (-m * (1 + c), -m * π / 4 + -m * (1 + c) * Real.tan alpha),
       Edge.line (-m * (1 + c), -m * π / 4 + -m * (1 + c) * Real.tan alpha)
         (m * (1 + h), -m * π / 4 + m * (1 + h) * Real.tan alpha),
       Edge.line (m * (1 + h), -m * π / 4 + m * (1 + h) * Real.tan alpha)
         (m * (1 + h), -(-m * π / 4 + m * (1 + h) * Real.tan alpha)),
       Edge.line (m * (1 + h), -(-m * π / 4 + m * (1 + h) * Real.tan alpha))
         (-m * (1 + c), -(-m * π / 4 + -m * (1 + c) * Real.tan alpha)),
       Edge.line (-m * (1 + c), -(-m * π / 4 + -m * (1 + c) * Real.tan alpha))
         (-m * (1 + c), -(-m * π / 2))] := by
  simp [rawTooth, toothPoints, points_to_wire]

lemma insert_fillet_ok {edges : List (Option Edge)} {pos : ℕ} {r : ℝ}
    {out : List (Option Edge)} (h : insert_fillet edges pos r = .ok out) :
    ∃ e1, edges[pos]? = some (some e1) ∧
      out = edges.take (pos + 1) ++
        [if r = 0 then none else some (.arc r e1.lastVertex)] ++
        edges.drop (pos + 1) := by
  unfold insert_fillet at h
  split at h
  case _ e1 e2 he1 he2 =>
    refine ⟨e1, he1, ?_⟩
    split at h
    case isTrue hr => cases h; simp [hr]
    case isFalse hr =>
      split at h
      case isTrue hf => cases h; simp [hr]
      case isFalse hf => cases h
  case _ => cases h

lemma except_bind_ok {α β : Type} {x : Except GearError α}
    {f : α → Except GearError β} {b : β} (h : x >>= f = .ok b) :
    ∃ a, x = .ok a ∧ f a = .ok b := by
  cases x with
  | ok a => exact ⟨a, rfl, h⟩
  | error e => simp [Bind.bind, Except.bind] at h

lemma filletedTooth_ok {m rf hf : ℝ} {a b c d e : Edge}
    {out : List (Option Edge)}
    (h : filletedTooth m rf hf [a, b, c, d, e] = .ok out) :
    out = [some a,
           if m * rf = 0 then none else some (.arc (m * rf) a.lastVertex),
           some b,
           if m * hf = 0 then none else some (.arc (m * hf) b.lastVertex),
           some c,
           if m * hf = 0 then none else some (.arc (m * hf) c.lastVertex),
           some d,
           if m * rf = 0 then none else some (.arc (m * rf) d.lastVertex),
           some e] := by
  unfold filletedTooth at h
  obtain ⟨o1, h1, h⟩ := except_bind_ok h
  obtain ⟨e1, he1, ho1⟩ := insert_fillet_ok h1
  simp at he1
  subst he1
  simp at ho1
  subst ho1
  obtain ⟨o2, h2, h⟩ := except_bind_ok h
  obtain ⟨e2, he2, ho2⟩ := insert_fillet_ok h2
  simp at he2
  subst he2
  simp at ho2
  subst ho2
  obtain ⟨o3, h3, h⟩ := except_bind_ok h
  obtain ⟨e3, he3, ho3⟩ := insert_fillet_ok h3
  simp at he3
  subst he3
  simp at ho3
  subst ho3
  obtain ⟨e4, he4, ho4⟩ := insert_fillet_ok h
  simp at he4
  subst he4
  simp at ho4
  subst ho4
  simp

theorem C1_raw_tooth_profile_witness :
    demoObj.properties_from_tool = false ∧ 0 < demoObj.module ∧
      buildRawTooth demoObj =
        (let m := demoObj.module
         let alpha := demoObj.pressure_angle * π / 180
         let x1 := -m * π / 2
         let y1 := -m * (1 + demoObj.clearance)
         let x2 := -m * π / 4 + y1 * Real.tan alpha
         let y3 := m * (1 + demoObj.head)
         let x3 := -m * π / 4 + y3 * Real.tan alpha
         [Edge.line (y1, x1) (y1, x2), Edge.line (y1, x2) (y3, x3),
          Edge.line (y3, x3) (y3, -x3), Edge.line (y3, -x3) (y1, -x2),
          Edge.line (y1, -x2) (y1, -x1)]) :=
  ⟨rfl, by norm_num [demoObj],
    C1_raw_tooth_profile demoObj rfl (by norm_num [demoObj])⟩

/-- C7: whenever `properties_from_tool` is disabled, the `transverse_pitch`
value written by the build equals `module × π`, for every helix angle. -/
theorem C7_transverse_pitch (obj : ObjState)
    (hpft : obj.properties_from_tool = false) :
    (generate_gear_shape obj).1.transverse_pitch = obj.module * π := by
  simp [generate_gear_shape, buildPitch_eq obj hpft]

theorem C7_transverse_pitch_witness :
    demoObj.properties_from_tool = false ∧
      (generate_gear_shape demoObj).1.transverse_pitch = demoObj.module * π :=
  ⟨rfl, C7_transverse_pitch demoObj rfl⟩

/-- C8 (amended): each build is a pure function of the current parameter
snapshot; the returned state differs from the input state in exactly two
places, the overwritten externally visible `transverse_pitch` and the fields
of the persistent `obj.rack` helper object, both of which are functions of
the snapshot alone (source lines 200-217). -/
theorem C8_build_frame (obj : ObjState) :
    (generate_gear_shape obj).1 =
      { obj with rack := rackFromObj obj, transverse_pitch := buildPitch obj } :=
  rfl

/-- C8 counterexample: the build also mutates the persistent `obj.rack`
object, not only `transverse_pitch`: starting from a state whose stored
`rack.m` is 7 while `module` is 1, the build overwrites `rack.m` with 1, so
the resulting state is not the input state with only `transverse_pitch`
changed. -/
theorem C8_build_frame_counterexample :
    staleRackObj.rack.m = 7 ∧ staleRackObj.module = 1 ∧
      (generate_gear_shape staleRackObj).1.rack.m = 1 ∧
      (generate_gear_shape staleRackObj).1 ≠
        { staleRackObj with
            transverse_pitch := (generate_gear_shape staleRackObj).1.transverse_pitch } := by
  refine ⟨rfl, rfl, rfl, fun h => ?_⟩
  have h7 := congrArg (fun s => s.rack.m) h
  simp only [generate_gear_shape, rackFromObj] at h7
  norm_num [staleRackObj, demoObj, demoRack] at h7

/-- C10: the stored `pressure_angle` and `helix_angle` are degrees at the
public interface: the build multiplies each by `π / 180` before any
trigonometric use, so the flank slope in the vertex formulas is
`tan(pressure_angle · π / 180)` and the loft skew is
`tan(helix_angle · π / 180)` applied to the converted value. -/
theorem C10_degree_conversion (obj : ObjState)
    (hpft : obj.properties_from_tool = false) :
    (rackFromObj obj).pressure_angle = obj.pressure_angle * π / 180 ∧
      (rackFromObj obj).beta = obj.helix_angle * π / 180 ∧
      buildAlpha obj = obj.pressure_angle * π / 180 ∧
      ((buildRawTooth obj).getD 1 default).firstVertex =
        (-obj.module * (1 + obj.clearance),
          -obj.module * π / 4 +
            -obj.module * (1 + obj.clearance) *
              Real.tan (obj.pressure_angle * π / 180)) ∧
      (∀ pol : List Edge, obj.height ≠ 0 → obj.helix_angle ≠ 0 →
        obj.double_helix = false →
        makeSolid obj pol =
          .loft [(pol, 0),
            (pol.map (Edge.translate
              ((0 : ℝ), Real.tan (obj.helix_angle * π / 180) * obj.height)),
              obj.height)] true false) := by
  refine ⟨rfl, rfl, rfl, ?_, ?_⟩
  · rw [buildRawTooth, buildM_eq obj hpft, rawTooth_eq]
    simp [buildAlpha, Edge.firstVertex]
  · intro pol hh hb hd
    have hbne : obj.helix_angle * π / 180 ≠ 0 := by
      simp [div_eq_zero_iff, Real.pi_ne_zero, hb]
    simp [makeSolid, rackFromObj, hh, hd, hbne]

theorem C10_degree_conversion_witness :
    demoObj.properties_from_tool = false ∧
      ((rackFromObj demoObj).pressure_angle =
          demoObj.pressure_angle * π / 180 ∧
        (rackFromObj demoObj).beta = demoObj.helix_angle * π / 180 ∧
        buildAlpha demoObj = demoObj.pressure_angle * π / 180 ∧
        ((buildRawTooth demoObj).getD 1 default).firstVertex =
          (-demoObj.module * (1 + demoObj.clearance),
            -demoObj.module * π / 4 +
              -demoObj.module * (1 + demoObj.clearance) *
                Real.tan (demoObj.pressure_angle * π / 180)) ∧
        (∀ pol : List Edge, demoObj.height ≠ 0 → demoObj.helix_angle ≠ 0 →
          demoObj.double_helix = false →
          makeSolid demoObj pol =
            .loft [(pol, 0),
              (pol.map (Edge.translate
                ((0 : ℝ),
                  Real.tan (demoObj.helix_angle * π / 180) * demoObj.height)),
                demoObj.height)] true false)) :=
  ⟨rfl, C10_degree_conversion demoObj rfl⟩

lemma buildRawTooth_explicit (obj : ObjState) :
    buildRawTooth obj =
      rawTooth (buildM obj) obj.clearance obj.head (buildAlpha obj) := rfl

/-- C2: in every successful build the fillets are inserted into the
decomposed tooth edge array exactly at edge positions 0, 2, 4 and 6, with
radius `module × root_fillet` at the two root corners (slots 1 and 7 of the
output array) and radius `module × head_fillet` at the two head corners
(slots 3 and 5); the five straight segments, flanks included, all survive
unfilleted in the even slots; a fillet factor of 0 inserts no fillet
edge (the slot holds the `None` placeholder, the corner stays sharp), and
removing the `None` placeholders leaves a continuous chain of edges. -/
theorem C2_fillet_insertion (obj : ObjState) {out : List (Option Edge)}
    (h : filletedTooth (buildM obj) obj.root_fillet obj.head_fillet
      (buildRawTooth obj) = .ok out) :
    (let E := buildRawTooth obj
     let rootR := buildM obj * obj.root_fillet
     let headR := buildM obj * obj.head_fillet
     out = [some (E.getD 0 default),
            if rootR = 0 then none
              else some (.arc rootR ((E.getD 0 default).lastVertex)),
            some (E.getD 1 default),
            if headR = 0 then none
              else some (.arc headR ((E.getD 1 default).lastVertex)),
            some (E.getD 2 default),
            if headR = 0 then none
              else some (.arc headR ((E.getD 2 default).lastVertex)),
            some (E.getD 3 default),
            if rootR = 0 then none
              else some (.arc rootR ((E.getD 3 default).lastVertex)),
            some (E.getD 4 default)]) ∧
    (obj.root_fillet = 0 → out.getD 1 none = none ∧ out.getD 7 none = none) ∧
    (obj.head_fillet = 0 → out.getD 3 none = none ∧ out.getD 5 none = none) ∧
    chainConnected (out.filterMap id) := by
  rw [buildRawTooth_explicit,
    rawTooth_eq (buildM obj) obj.clearance obj.head (buildAlpha obj)] at h
  have hout := filletedTooth_ok h
  subst hout
  refine ⟨?_, ?_, ?_, ?_⟩
  · rw [buildRawTooth_explicit,
      rawTooth_eq (buildM obj) obj.clearance obj.head (buildAlpha obj)]
    simp
  · intro hr; simp [hr]
  · intro hh; simp [hh]
  · by_cases hr : buildM obj * obj.root_fillet = 0 <;>
      by_cases hh : buildM obj * obj.head_fillet = 0 <;>
      simp [hr, hh, chainConnected, Edge.lastVertex, Edge.firstVertex]

lemma filletedTooth_zero (m : ℝ) (a b c d e : Edge) :
    filletedTooth m 0 0 [a, b, c, d, e] =
      .ok [some a, none, some b, none, some c, none, some d, none, some e] := by
  simp [filletedTooth, insert_fillet, Bind.bind, Except.bind]

lemma demo_fillet_ok : filletedTooth (buildM demoObj) demoObj.root_fillet
    demoObj.head_fillet (buildRawTooth demoObj) = .ok demoFilleted := by
  rw [show demoObj.root_fillet = 0 from rfl, show demoObj.head_fillet = 0
    from rfl, buildRawTooth_explicit,
    rawTooth_eq (buildM demoObj) demoObj.clearance demoObj.head
      (buildAlpha demoObj), filletedTooth_zero]
  simp [demoFilleted, buildRawTooth_explicit,
    rawTooth_eq (buildM demoObj) demoObj.clearance demoObj.head
      (buildAlpha demoObj)]

theorem C2_fillet_insertion_witness :
    (filletedTooth (buildM demoObj) demoObj.root_fillet demoObj.head_fillet
      (buildRawTooth demoObj) = .ok demoFilleted) ∧
    ((let E := buildRawTooth demoObj
      let rootR := buildM demoObj * demoObj.root_fillet
      let headR := buildM demoObj * demoObj.head_fillet
      demoFilleted =
        [some (E.getD 0 default),
         if rootR = 0 then none
           else some (.arc rootR ((E.getD 0 default).lastVertex)),
         some (E.getD 1 default),
         if headR = 0 then none
           else some (.arc headR ((E.getD 1 default).lastVertex)),
         some (E.getD 2 default),
         if headR = 0 then none
           else some (.arc headR ((E.getD 2 default).lastVertex)),
         some (E.getD 3 default),
         if rootR = 0 then none
           else some (.arc rootR ((E.getD 3 default).lastVertex)),
         some (E.getD 4 default)]) ∧
     (demoObj.root_fillet = 0 →
       demoFilleted.getD 1 none = none ∧ demoFilleted.getD 7 none = none) ∧
     (demoObj.head_fillet = 0 →
       demoFilleted.getD 3 none = none ∧ demoFilleted.getD 5 none = none) ∧
     chainConnected (demoFilleted.filterMap id)) :=
  ⟨demo_fillet_ok, C2_fillet_insertion demoObj demo_fillet_ok⟩

lemma Edge.translate_zero (e : Edge) : e.translate 0 = e := by
  cases e <;> simp [Edge.translate]

lemma Edge.translate_translate (v w : Point) (e : Edge) :
    (e.translate v).translate w = e.translate (v + w) := by
  cases e <;> simp [Edge.translate, add_assoc]

lemma wire_translate_zero (t : List Edge) : t.map (Edge.translate 0) = t :=
  (List.map_congr_left fun e _ => Edge.translate_zero e).trans t.map_id

lemma wire_translate_translate (v w : Point) (t : List Edge) :
    (t.map (Edge.translate v)).map (Edge.translate w) =
      t.map (Edge.translate (v + w)) := by
  rw [List.map_map]
  exact List.map_congr_left fun e _ => Edge.translate_translate v w e

lemma buildTeeth_eq (t : List Edge) (v : Point) (n : ℕ) :
    buildTeeth t v n =
      (List.range (n + 1)).map fun i => t.map (Edge.translate (i • v)) := by
  induction n with
  | zero =>
    rw [show List.range (0 + 1) = [0] by rfl]
    simp [buildTeeth, wire_translate_zero]
  | succ n ih =>
    have hlast : (((List.range (n + 1)).map fun i =>
        t.map (Edge.translate (i • v))).getLastD []) =
        t.map (Edge.translate (n • v)) := by
      rw [List.range_succ, List.map_append]
      simp
    have hstep : (t.map (Edge.translate (n • v))).map (Edge.translate v) =
        t.map (Edge.translate ((n + 1) • v)) := by
      rw [wire_translate_translate]
      refine List.map_congr_left fun e _ => ?_
      rw [succ_nsmul]
    rw [buildTeeth, ih, hlast, hstep,
      show List.range (n + 1 + 1) = List.range (n + 1) ++ [n + 1] from
        List.range_succ (n + 1), List.map_append]
    rfl

lemma range_map_getD {α : Type} (f : ℕ → α) (n i : ℕ) (d : α) (hi : i < n) :
    ((List.range n).map f).getD i d = f i := by
  rw [List.getD_eq_getElem?_getD, List.getElem?_map, List.getElem?_range hi]
  rfl

lemma buildTeeth_getD (t : List Edge) (v : Point) (n i : ℕ) (hi : i ≤ n) :
    (buildTeeth t v n).getD i [] = t.map (Edge.translate (i • v)) := by
  rw [buildTeeth_eq]
  exact range_map_getD _ _ _ _ (Nat.lt_succ_of_le hi)

lemma buildTeeth_length (t : List Edge) (v : Point) (n : ℕ) :
    (buildTeeth t v n).length = n + 1 := by
  rw [buildTeeth_eq]; simp

lemma buildTeeth_getLastD (t : List Edge) (v : Point) (n : ℕ) :
    (buildTeeth t v n).getLastD [] = t.map (Edge.translate (n • v)) := by
  rw [buildTeeth_eq, List.range_succ, List.map_append]
  simp

/-- C3: for every successful build with `num_teeth = N` in `[3, 10000]`, the
closed single-tooth unit is the chain (the filleted edge list minus its
first and last edges) plus the bridging edge from the chain's last vertex to
the chain's first vertex advanced by one pitch `π × module`; the unit is
replicated `N - 1` additional times, tooth `i+1` being tooth `i` translated
by `(0, module × π)`; and the final replica loses exactly its trailing
bridge edge. -/
theorem C3_tooth_tiling (obj : ObjState) {out : List (Option Edge)}
    (h : filletedTooth (buildM obj) obj.root_fillet obj.head_fillet
      (buildRawTooth obj) = .ok out)
    (hN3 : 3 ≤ obj.num_teeth) (_hN : obj.num_teeth ≤ 10000) :
    toothUnit (out.filterMap id) (buildM obj) =
      toothChain (out.filterMap id) ++
        [bridgeEdge (out.filterMap id) (buildM obj)] ∧
    (preTeeth obj (out.filterMap id)).length = obj.num_teeth ∧
    (∀ i, i + 1 < obj.num_teeth →
      (preTeeth obj (out.filterMap id)).getD (i + 1) [] =
        ((preTeeth obj (out.filterMap id)).getD i []).map
          (Edge.translate ((0 : ℝ), π * buildM obj))) ∧
    (dropBridge (preTeeth obj (out.filterMap id))).length = obj.num_teeth ∧
    (dropBridge (preTeeth obj (out.filterMap id))).getLastD [] =
      (toothChain (out.filterMap id)).map
        (Edge.translate ((obj.num_teeth - 1) • ((0 : ℝ), π * buildM obj))) := by
  have hunit : toothUnit (out.filterMap id) (buildM obj) =
      toothChain (out.filterMap id) ++
        [bridgeEdge (out.filterMap id) (buildM obj)] := by
    rw [buildRawTooth_explicit,
      rawTooth_eq (buildM obj) obj.clearance obj.head (buildAlpha obj)] at h
    have hout := filletedTooth_ok h
    subst hout
    by_cases hr : buildM obj * obj.root_fillet = 0 <;>
      by_cases hh : buildM obj * obj.head_fillet = 0 <;>
      simp [hr, hh, toothUnit, toothChain, bridgeEdge, Edge.lastVertex,
        Edge.firstVertex]
  have hN1 : obj.num_teeth - 1 + 1 = obj.num_teeth := by omega
  refine ⟨hunit, ?_, ?_, ?_, ?_⟩
  · rw [preTeeth, buildTeeth_length, hN1]
  · intro i hi
    rw [preTeeth, buildTeeth_getD _ _ _ _ (by omega),
      buildTeeth_getD _ _ _ _ (by omega), wire_translate_translate]
    refine List.map_congr_left fun e _ => ?_
    rw [succ_nsmul]
  · rw [dropBridge, preTeeth, List.length_append, List.length_dropLast,
      buildTeeth_length]
    simp; omega
  · rw [dropBridge, preTeeth, List.getLastD_concat, buildTeeth_getLastD,
      hunit, ← List.map_dropLast, List.dropLast_concat]

theorem C3_tooth_tiling_witness :
    (filletedTooth (buildM demoObj) demoObj.root_fillet demoObj.head_fillet
      (buildRawTooth demoObj) = .ok demoFilleted) ∧
    3 ≤ demoObj.num_teeth ∧ demoObj.num_teeth ≤ 10000 ∧
    (toothUnit (demoFilleted.filterMap id) (buildM demoObj) =
      toothChain (demoFilleted.filterMap id) ++
        [bridgeEdge (demoFilleted.filterMap id) (buildM demoObj)] ∧
    (preTeeth demoObj (demoFilleted.filterMap id)).length =
      demoObj.num_teeth ∧
    (∀ i, i + 1 < demoObj.num_teeth →
      (preTeeth demoObj (demoFilleted.filterMap id)).getD (i + 1) [] =
        ((preTeeth demoObj (demoFilleted.filterMap id)).getD i []).map
          (Edge.translate ((0 : ℝ), π * buildM demoObj))) ∧
    (dropBridge (preTeeth demoObj (demoFilleted.filterMap id))).length =
      demoObj.num_teeth ∧
    (dropBridge (preTeeth demoObj (demoFilleted.filterMap id))).getLastD [] =
      (toothChain (demoFilleted.filterMap id)).map
        (Edge.translate
          ((demoObj.num_teeth - 1) • ((0 : ℝ), π * buildM demoObj)))) :=
  ⟨demo_fillet_ok, by norm_num [demoObj], by norm_num [demoObj],
    C3_tooth_tiling demoObj demo_fillet_ok (by norm_num [demoObj])
      (by norm_num [demoObj])⟩

lemma fillet_ok_zero (obj : ObjState) (hr : obj.root_fillet = 0)
    (hh : obj.head_fillet = 0) :
    filletedTooth (buildM obj) obj.root_fillet obj.head_fillet
      (buildRawTooth obj) = .ok (zeroFilleted obj) := by
  rw [hr, hh, buildRawTooth_explicit,
    rawTooth_eq (buildM obj) obj.clearance obj.head (buildAlpha obj),
    filletedTooth_zero]
  simp [zeroFilleted, buildRawTooth_explicit,
    rawTooth_eq (buildM obj) obj.clearance obj.head (buildAlpha obj)]

lemma buildOutline_ok_of {obj : ObjState} {es : List (Option Edge)}
    (h : filletedTooth (buildM obj) obj.root_fillet obj.head_fillet
      (buildRawTooth obj) = .ok es) :
    buildOutline obj = .ok (outlineFrom obj es) := by
  rw [buildOutline, h]; rfl

/-- C5 (amended): solid generation is a case split on
(`height`, `helix_angle`, `double_helix`): height 0 returns the 2-D outline;
positive height with zero helix angle extrudes straight by the height; with a
nonzero helix angle and `double_helix` off, the outline and a copy translated
by `(0, tan(helix_angle)·height, height)` are lofted with the solid flag set
(the ruled flag is left at its default `false`); with `double_helix` on,
three copies at heights 0, height/2 (pitch offset `tan(helix_angle)·height/2`)
and height (pitch offset 0) are lofted with both the solid and ruled flags
set. -/
theorem C5_solid_case_split (obj : ObjState) (pol : List Edge)
    (h : buildOutline obj = .ok pol) :
    (generate_gear_shape obj).2 = .ok (makeSolid obj pol) ∧
    (obj.height = 0 → makeSolid obj pol = .outline pol) ∧
    (0 < obj.height → obj.helix_angle = 0 →
      makeSolid obj pol = .extrusion pol obj.height) ∧
    (0 < obj.height → obj.helix_angle ≠ 0 → obj.double_helix = false →
      makeSolid obj pol =
        .loft [(pol, 0),
          (pol.map (Edge.translate
            ((0 : ℝ), Real.tan (obj.helix_angle * π / 180) * obj.height)),
            obj.height)] true false) ∧
    (0 < obj.height → obj.helix_angle ≠ 0 → obj.double_helix = true →
      makeSolid obj pol =
        .loft [(pol, 0),
          (pol.map (Edge.translate
            ((0 : ℝ), Real.tan (obj.helix_angle * π / 180) * obj.height / 2)),
            obj.height / 2),
          (pol, obj.height)] true true) := by
  refine ⟨?_, ?_, ?_, ?_, ?_⟩
  · simp [generate_gear_shape, h, Except.map]
  · intro h0; simp [makeSolid, h0]
  · intro hH hb
    simp [makeSolid, rackFromObj, hH.ne', hb]
  · intro hH hb hd
    have hbne : obj.helix_angle * π / 180 ≠ 0 := by
      simp [div_eq_zero_iff, Real.pi_ne_zero, hb]
    simp [makeSolid, rackFromObj, hH.ne', hbne, hd]
  · intro hH hb hd
    have hbne : obj.helix_angle * π / 180 ≠ 0 := by
      simp [div_eq_zero_iff, Real.pi_ne_zero, hb]
    simp [makeSolid, rackFromObj, hH.ne', hbne, hd]

theorem C5_solid_case_split_witness :
    (buildOutline heliObj = .ok heliPol) ∧
    ((generate_gear_shape heliObj).2 = .ok (makeSolid heliObj heliPol) ∧
    (heliObj.height = 0 → makeSolid heliObj heliPol = .outline heliPol) ∧
    (0 < heliObj.height → heliObj.helix_angle = 0 →
      makeSolid heliObj heliPol = .extrusion heliPol heliObj.height) ∧
    (0 < heliObj.height → heliObj.helix_angle ≠ 0 →
      heliObj.double_helix = false →
      makeSolid heliObj heliPol =
        .loft [(heliPol, 0),
          (heliPol.map (Edge.translate
            ((0 : ℝ),
              Real.tan (heliObj.helix_angle * π / 180) * heliObj.height)),
            heliObj.height)] true false) ∧
    (0 < heliObj.height → heliObj.helix_angle ≠ 0 →
      heliObj.double_helix = true →
      makeSolid heliObj heliPol =
        .loft [(heliPol, 0),
          (heliPol.map (Edge.translate
            ((0 : ℝ),
              Real.tan (heliObj.helix_angle * π / 180) * heliObj.height / 2)),
            heliObj.height / 2),
          (heliPol, heliObj.height)] true true)) :=
  have hok : buildOutline heliObj = .ok heliPol :=
    buildOutline_ok_of (fillet_ok_zero heliObj rfl rfl)
  ⟨hok, C5_solid_case_split heliObj heliPol hok⟩

/-- C5 counterexample: a build with positive height, nonzero helix angle and
`double_helix` off produces a two-profile loft whose `solid` flag is set but
whose `ruled` flag is `false` (the source passes only `True` for `solid` in
`part.makeLoft([pol, pol2], True)`), not the solid-capped ruled loft the
claim states. -/
theorem C5_solid_case_split_counterexample :
    0 < heliObj.height ∧ heliObj.helix_angle ≠ 0 ∧
      heliObj.double_helix = false ∧
      resultLoftFlags heliObj = some (2, true, false) := by
  have hok : buildOutline heliObj = .ok heliPol :=
    buildOutline_ok_of (fillet_ok_zero heliObj rfl rfl)
  have hb : heliObj.helix_angle * π / 180 ≠ 0 := by
    have : 0 < (45 : ℝ) * π / 180 := by positivity
    simpa [heliObj, demoObj] using this.ne'
  refine ⟨by norm_num [heliObj, demoObj], by norm_num [heliObj, demoObj],
    rfl, ?_⟩
  have hH : heliObj.height ≠ 0 := by norm_num [heliObj, demoObj]
  simp [resultLoftFlags, generate_gear_shape, hok, Except.map, makeSolid,
    rackFromObj, hH, hb, show heliObj.double_helix = false from rfl]

/-- C6: in the double-helix case the loft is symmetric about half-height:
the mid profile is the base outline translated along the pitch axis by
`d = tan(β)·height/2`, the top profile returns to the base outline (so its
pitch offset from the mid profile is `-d`), and the two offset magnitudes
are equal. -/
theorem C6_double_helix_symmetry (obj : ObjState) (pol : List Edge)
    (hH : 0 < obj.height) (hb : obj.helix_angle ≠ 0)
    (hd : obj.double_helix = true) :
    makeSolid obj pol =
      .loft [(pol, 0),
        (pol.map (Edge.translate ((0 : ℝ),
          Real.tan ((rackFromObj obj).beta) * obj.height / 2)),
          obj.height / 2),
        (pol, obj.height)] true true ∧
    pol = (pol.map (Edge.translate ((0 : ℝ),
        Real.tan ((rackFromObj obj).beta) * obj.height / 2))).map
      (Edge.translate ((0 : ℝ),
        -(Real.tan ((rackFromObj obj).beta) * obj.height / 2))) ∧
    |Real.tan ((rackFromObj obj).beta) * obj.height / 2 - 0| =
      |0 - Real.tan ((rackFromObj obj).beta) * obj.height / 2| := by
  have hbne : obj.helix_angle * π / 180 ≠ 0 := by
    simp [div_eq_zero_iff, Real.pi_ne_zero, hb]
  refine ⟨?_, ?_, abs_sub_comm _ _⟩
  · simp [makeSolid, rackFromObj, hH.ne', hbne, hd]
  · rw [wire_translate_translate]
    have : (((0 : ℝ), Real.tan ((rackFromObj obj).beta) * obj.height / 2) +
        ((0 : ℝ), -(Real.tan ((rackFromObj obj).beta) * obj.height / 2))) =
        (0 : Point) := by
      simp [Prod.ext_iff]
    rw [this, wire_translate_zero]

theorem C6_double_helix_symmetry_witness :
    0 < heliDoubleObj.height ∧ heliDoubleObj.helix_angle ≠ 0 ∧
      heliDoubleObj.double_helix = true ∧
      (makeSolid heliDoubleObj [] =
        .loft [(([] : List Edge), 0),
          (([] : List Edge).map (Edge.translate ((0 : ℝ),
            Real.tan ((rackFromObj heliDoubleObj).beta) *
              heliDoubleObj.height / 2)),
            heliDoubleObj.height / 2),
          (([] : List Edge), heliDoubleObj.height)] true true ∧
      ([] : List Edge) = (([] : List Edge).map (Edge.translate ((0 : ℝ),
          Real.tan ((rackFromObj heliDoubleObj).beta) *
            heliDoubleObj.height / 2))).map
        (Edge.translate ((0 : ℝ),
          -(Real.tan ((rackFromObj heliDoubleObj).beta) *
            heliDoubleObj.height / 2))) ∧
      |Real.tan ((rackFromObj heliDoubleObj).beta) *
          heliDoubleObj.height / 2 - 0| =
        |0 - Real.tan ((rackFromObj heliDoubleObj).beta) *
          heliDoubleObj.height / 2|) :=
  ⟨by norm_num [heliDoubleObj, demoObj], by norm_num [heliDoubleObj, demoObj],
    rfl, C6_double_helix_symmetry heliDoubleObj []
      (by norm_num [heliDoubleObj, demoObj])
      (by norm_num [heliDoubleObj, demoObj]) rfl⟩

lemma insert_fillet_error {edges : List (Option Edge)} {pos : ℕ} {r : ℝ}
    {e : GearError} (h : insert_fillet edges pos r = .error e) :
    e = .GeometricConstraintError := by
  unfold insert_fillet at h
  split at h
  · split at h
    · cases h
    · split at h
      · cases h
      · cases h; rfl
  · cases h; rfl

lemma filletedTooth_error {m rf hf : ℝ} {t : List Edge} {e : GearError}
    (h : filletedTooth m rf hf t = .error e) :
    e = .GeometricConstraintError := by
  unfold filletedTooth at h
  rcases h1 : insert_fillet (t.map some) 0 (m * rf) with e1 | o1
  · rw [h1] at h
    simp only [Bind.bind, Except.bind, Except.error.injEq] at h
    exact h ▸ insert_fillet_error h1
  · rw [h1] at h
    simp only [Bind.bind, Except.bind] at h
    rcases h2 : insert_fillet o1 2 (m * hf) with e2 | o2
    · rw [h2] at h
      simp only [Except.error.injEq] at h
      exact h ▸ insert_fillet_error h2
    · rw [h2] at h
      simp only at h
      rcases h3 : insert_fillet o2 4 (m * hf) with e3 | o3
      · rw [h3] at h
        simp only [Except.error.injEq] at h
        exact h ▸ insert_fillet_error h3
      · rw [h3] at h
        simp only at h
        exact insert_fillet_error h

lemma buildOutline_error {obj : ObjState} {e : GearError}
    (h : buildOutline obj = .error e) :
    filletedTooth (buildM obj) obj.root_fillet obj.head_fillet
      (buildRawTooth obj) = .error e := by
  rw [buildOutline] at h
  rcases hf : filletedTooth (buildM obj) obj.root_fillet obj.head_fillet
      (buildRawTooth obj) with e1 | es
  · rw [hf] at h
    simp only [Except.map, Except.error.injEq] at h
    rw [h]
  · rw [hf] at h
    simp [Except.map] at h

/-- C9 (amended): when a build fails (the only fallible stage is fillet
insertion), the typed `GeometricConstraintError` propagates to the caller
unmodified with no retries, and the build yields neither a solid nor a 2-D
outline; however, the `transverse_pitch` field has already been overwritten
with the newly computed pitch before the failure, because the source writes
it (lines 216-217) before inserting the fillets (lines 250-253), so the
previously stored value is not preserved. -/
theorem C9_error_propagation (obj : ObjState) {err : GearError}
    (h : buildOutline obj = .error err) :
    (generate_gear_shape obj).2 = .error err ∧
    err = .GeometricConstraintError ∧
    (generate_gear_shape obj).1 =
      { obj with rack := rackFromObj obj,
                 transverse_pitch := buildPitch obj } := by
  refine ⟨?_, filletedTooth_error (buildOutline_error h), rfl⟩
  simp [generate_gear_shape, h, Except.map]

lemma bigFillet_error :
    buildOutline bigFilletObj = .error .GeometricConstraintError := by
  have hm : buildM bigFilletObj = 1 := by
    rw [buildM_eq bigFilletObj rfl]; rfl
  have h0 : insert_fillet ((buildRawTooth bigFilletObj).map some) 0
      (buildM bigFilletObj * bigFilletObj.root_fillet) =
      .error .GeometricConstraintError := by
    rw [buildRawTooth_explicit,
      rawTooth_eq (buildM bigFilletObj) bigFilletObj.clearance
        bigFilletObj.head (buildAlpha bigFilletObj), hm]
    rw [show bigFilletObj.root_fillet = (1000000 : ℝ) from rfl,
      show bigFilletObj.clearance = (1 / 4 : ℝ) from rfl,
      show bigFilletObj.head = (0 : ℝ) from rfl,
      show buildAlpha bigFilletObj = 0 by
        simp [buildAlpha, bigFilletObj, demoObj]]
    unfold insert_fillet
    simp only [List.map_cons, List.getElem?_cons_zero,
      List.getElem?_cons_succ, Real.tan_zero, mul_zero, add_zero, one_mul]
    rw [if_neg (by norm_num)]
    rw [if_neg ?_]
    rintro ⟨-, hle, -⟩
    rw [Edge.sqLen] at hle
    have hpi : π < 3.15 := Real.pi_lt_d2
    have hpi0 : 0 < π := Real.pi_pos
    nlinarith [hle, hpi, hpi0]
  have hfe : filletedTooth (buildM bigFilletObj) bigFilletObj.root_fillet
      bigFilletObj.head_fillet (buildRawTooth bigFilletObj) =
      .error .GeometricConstraintError := by
    rw [filletedTooth, h0]
    rfl
  rw [buildOutline, hfe]
  rfl

/-- C9 counterexample: the failing build propagates the typed error and
produces no geometry, but the externally visible `transverse_pitch` is NOT
left untouched: it was 99 before the build and is `π` (the freshly computed
pitch for `module = 1`) afterwards, because the write precedes the failing
fillet insertion. -/
theorem C9_error_propagation_counterexample :
    bigFilletObj.transverse_pitch = 99 ∧
    (generate_gear_shape bigFilletObj).2 = .error .GeometricConstraintError ∧
    (generate_gear_shape bigFilletObj).1.transverse_pitch = π ∧
    (generate_gear_shape bigFilletObj).1.transverse_pitch ≠
      bigFilletObj.transverse_pitch := by
  have h2 : (generate_gear_shape bigFilletObj).2 =
      .error .GeometricConstraintError := by
    simp [generate_gear_shape, bigFillet_error, Except.map]
  have h1 : (generate_gear_shape bigFilletObj).1.transverse_pitch = π := by
    show buildPitch bigFilletObj = π
    rw [buildPitch_eq bigFilletObj rfl]
    norm_num [bigFilletObj, demoObj]
  refine ⟨rfl, h2, h1, ?_⟩
  rw [h1, show bigFilletObj.transverse_pitch = (99 : ℝ) from rfl]
  intro hcon
  have hpi : π < 3.15 := Real.pi_lt_d2
  norm_num [hcon] at hpi

theorem C9_error_propagation_witness :
    (buildOutline bigFilletObj = .error .GeometricConstraintError) ∧
    ((generate_gear_shape bigFilletObj).2 =
        .error .GeometricConstraintError ∧
      (.GeometricConstraintError : GearError) = .GeometricConstraintError ∧
      (generate_gear_shape bigFilletObj).1 =
        { bigFilletObj with rack := rackFromObj bigFilletObj,
                            transverse_pitch := buildPitch bigFilletObj }) :=
  ⟨bigFillet_error, C9_error_propagation bigFilletObj bigFillet_error⟩

lemma foldr_max_le {l : List ℝ} {a b : ℝ} (ha : a ≤ b)
    (hl : ∀ x ∈ l, x ≤ b) : l.foldr max a ≤ b := by
  induction l with
  | nil => exact ha
  | cons x xs ih =>
    simp only [List.foldr_cons]
    exact max_le (hl x (by simp)) (ih fun y hy => hl y (by simp [hy]))

lemma le_foldr_max_of_mem {l : List ℝ} {b : ℝ} (a : ℝ) (h : b ∈ l) :
    b ≤ l.foldr max a := by
  induction l with
  | nil => simp at h
  | cons x xs ih =>
    simp only [List.foldr_cons]
    rcases List.mem_cons.1 h with rfl | h2
    · exact le_max_left _ _
    · exact le_trans (ih h2) (le_max_right _ _)

lemma le_foldr_min {l : List ℝ} {a b : ℝ} (ha : b ≤ a)
    (hl : ∀ x ∈ l, b ≤ x) : b ≤ l.foldr min a := by
  induction l with
  | nil => exact ha
  | cons x xs ih =>
    simp only [List.foldr_cons]
    exact le_min (hl x (by simp)) (ih fun y hy => hl y (by simp [hy]))

lemma foldr_min_le_of_mem {l : List ℝ} {b : ℝ} (a : ℝ) (h : b ∈ l) :
    l.foldr min a ≤ b := by
  induction l with
  | nil => simp at h
  | cons x xs ih =>
    simp only [List.foldr_cons]
    rcases List.mem_cons.1 h with rfl | h2
    · exact min_le_left _ _
    · exact le_trans (min_le_right _ _) (ih h2)

lemma headD_mem {α : Type} {l : List α} (d : α) (h : l ≠ []) :
    l.headD d ∈ l := by
  cases l with
  | nil => exact absurd rfl h
  | cons a t => simp

lemma getLastD_mem {α : Type} {l : List α} (d : α) (h : l ≠ []) :
    l.getLastD d ∈ l := by
  rw [List.getLastD_eq_getLast?, List.getLast?_eq_getLast l h]
  simp

lemma pitchExtent_eq_of {pol : List Edge} {lo hi : ℝ}
    (hlo : lo ∈ pitchList pol) (hhi : hi ∈ pitchList pol)
    (hb : ∀ q ∈ pitchList pol, lo ≤ q ∧ q ≤ hi) :
    pitchExtent pol = hi - lo := by
  have hne : pitchList pol ≠ [] := List.ne_nil_of_mem hlo
  have hhead := headD_mem (0 : ℝ) hne
  have hmax : (pitchList pol).foldr max ((pitchList pol).headD 0) = hi :=
    le_antisymm (foldr_max_le (hb _ hhead).2 fun x hx => (hb x hx).2)
      (le_foldr_max_of_mem _ hhi)
  have hmin : (pitchList pol).foldr min ((pitchList pol).headD 0) = lo :=
    le_antisymm (foldr_min_le_of_mem _ hlo)
      (le_foldr_min (hb _ hhead).1 fun x hx => (hb x hx).1)
  rw [pitchExtent, hmax, hmin]

lemma vertices_cons (e : Edge) (l : List Edge) :
    vertices (e :: l) = e.firstVertex :: e.lastVertex :: vertices l := by
  simp [vertices]

lemma pitchList_cons (e : Edge) (l : List Edge) :
    pitchList (e :: l) =
      e.firstVertex.2 :: e.lastVertex.2 :: pitchList l := by
  simp [pitchList, vertices_cons]

lemma vertices_append (l1 l2 : List Edge) :
    vertices (l1 ++ l2) = vertices l1 ++ vertices l2 := by
  simp [vertices]

lemma pitchList_append (l1 l2 : List Edge) :
    pitchList (l1 ++ l2) = pitchList l1 ++ pitchList l2 := by
  simp [pitchList, vertices_append]

lemma Edge.firstVertex_translate (v : Point) (e : Edge) :
    (e.translate v).firstVertex = e.firstVertex + v := by
  cases e <;> rfl

lemma Edge.lastVertex_translate (v : Point) (e : Edge) :
    (e.translate v).lastVertex = e.lastVertex + v := by
  cases e <;> rfl

lemma pitchList_map_translate (v : Point) (w : List Edge) :
    pitchList (w.map (Edge.translate v)) = (pitchList w).map (· + v.2) := by
  induction w with
  | nil => simp [pitchList, vertices]
  | cons e t ih =>
    simp only [List.map_cons, pitchList_cons, ih,
      Edge.firstVertex_translate, Edge.lastVertex_translate]
    rfl

lemma pitchList_flatten_mem {ts : List (List Edge)} {q : ℝ} :
    q ∈ pitchList ts.flatten ↔ ∃ w ∈ ts, q ∈ pitchList w := by
  induction ts with
  | nil => simp [pitchList, vertices]
  | cons w ws ih =>
    rw [List.flatten_cons, pitchList_append]
    simp [ih]

lemma mem_pitchList_first {e : Edge} {pol : List Edge} (h : e ∈ pol) :
    e.firstVertex.2 ∈ pitchList pol := by
  induction pol with
  | nil => simp at h
  | cons a t ih =>
    rw [pitchList_cons]
    rcases List.mem_cons.1 h with rfl | h2
    · simp
    · simp [ih h2]

lemma mem_pitchList_last {e : Edge} {pol : List Edge} (h : e ∈ pol) :
    e.lastVertex.2 ∈ pitchList pol := by
  induction pol with
  | nil => simp at h
  | cons a t ih =>
    rw [pitchList_cons]
    rcases List.mem_cons.1 h with rfl | h2
    · simp
    · simp [ih h2]

lemma mem_pitchList_elim {pol : List Edge} {q : ℝ}
    (h : q ∈ pitchList pol) :
    ∃ e ∈ pol, q = e.firstVertex.2 ∨ q = e.lastVertex.2 := by
  induction pol with
  | nil => simp [pitchList, vertices] at h
  | cons a t ih =>
    rw [pitchList_cons] at h
    rcases List.mem_cons.1 h with rfl | h2
    · exact ⟨a, by simp, Or.inl rfl⟩
    · rcases List.mem_cons.1 h2 with rfl | h3
      · exact ⟨a, by simp, Or.inr rfl⟩
      · obtain ⟨e, he, hq⟩ := ih h3
        exact ⟨e, by simp [he], hq⟩

lemma pitchList_strip (pS pE : Point) (t : ℝ) :
    pitchList (points_to_wire
      [(pS, pS - ((t : ℝ), (0 : ℝ))),
       (pS - ((t : ℝ), (0 : ℝ)), pE - ((t : ℝ), (0 : ℝ))),
       (pE - ((t : ℝ), (0 : ℝ)), pE)]) =
      [pS.2, pS.2, pS.2, pE.2, pE.2, pE.2] := by
  simp [points_to_wire, pitchList, vertices, Edge.firstVertex,
    Edge.lastVertex, Prod.snd_sub]

lemma pitchList_bottomStrip (ts : List (List Edge)) (t lo hi : ℝ)
    (hfirst : ((ts.headD []).headD default).firstVertex.2 = lo)
    (hlast : ((ts.getLastD []).getLastD default).lastVertex.2 = hi) :
    pitchList (bottomStrip ts t) = [lo, lo, lo, hi, hi, hi] := by
  have hb : bottomStrip ts t = points_to_wire
      [(((ts.headD []).headD default).firstVertex,
        ((ts.headD []).headD default).firstVertex - ((t : ℝ), (0 : ℝ))),
       (((ts.headD []).headD default).firstVertex - ((t : ℝ), (0 : ℝ)),
        ((ts.getLastD []).getLastD default).lastVertex - ((t : ℝ), (0 : ℝ))),
       (((ts.getLastD []).getLastD default).lastVertex - ((t : ℝ), (0 : ℝ)),
        ((ts.getLastD []).getLastD default).lastVertex)] := rfl
  rw [hb, pitchList_strip, hfirst, hlast]

lemma pitchExtent_outline (ts : List (List Edge)) (t lo hi : ℝ)
    (hlohi : lo ≤ hi)
    (hfirst : ((ts.headD []).headD default).firstVertex.2 = lo)
    (hlast : ((ts.getLastD []).getLastD default).lastVertex.2 = hi)
    (hb : ∀ q, (∃ w ∈ ts, q ∈ pitchList w) → lo ≤ q ∧ q ≤ hi) :
    pitchExtent (bottomStrip ts t ++ ts.flatten) = hi - lo := by
  have hbot := pitchList_bottomStrip ts t lo hi hfirst hlast
  refine pitchExtent_eq_of ?_ ?_ ?_
  · rw [pitchList_append]
    exact List.mem_append_left _ (by rw [hbot]; simp)
  · rw [pitchList_append]
    exact List.mem_append_left _ (by rw [hbot]; simp)
  · intro q hq
    rw [pitchList_append, List.mem_append] at hq
    rcases hq with hq | hq
    · rw [hbot] at hq
      simp only [List.mem_cons, List.not_mem_nil, or_false] at hq
      rcases hq with rfl | rfl | rfl | rfl | rfl | rfl
      all_goals constructor <;> first | rfl | exact hlohi
    · exact hb q (pitchList_flatten_mem.1 hq)

lemma dropBridge_buildTeeth (t0 : List Edge) (v : Point) (n : ℕ) :
    dropBridge (buildTeeth t0 v n) =
      ((List.range n).map fun i => t0.map (Edge.translate (i • v))) ++
        [(t0.map (Edge.translate (n • v))).dropLast] := by
  rw [dropBridge, buildTeeth_getLastD, buildTeeth_eq,
    show List.range (n + 1) = List.range n ++ [n] from List.range_succ n,
    List.map_append]
  simp

/-- The single-tooth unit of the build splits into the chain (the filleted
edge list minus its first and last edges) followed by the bridge edge. -/
lemma toothUnit_decomp (obj : ObjState) {out : List (Option Edge)}
    (h : filletedTooth (buildM obj) obj.root_fillet obj.head_fillet
      (buildRawTooth obj) = .ok out) :
    toothUnit (out.filterMap id) (buildM obj) =
      toothChain (out.filterMap id) ++
        [bridgeEdge (out.filterMap id) (buildM obj)] := by
  rw [buildRawTooth_explicit,
    rawTooth_eq (buildM obj) obj.clearance obj.head (buildAlpha obj)] at h
  have hout := filletedTooth_ok h
  subst hout
  by_cases hr : buildM obj * obj.root_fillet = 0 <;>
    by_cases hh : buildM obj * obj.head_fillet = 0 <;>
    simp [hr, hh, toothUnit, toothChain, bridgeEdge, Edge.lastVertex,
      Edge.firstVertex]

lemma filterMap_ninesplit (a b c d e : Edge) (F0 F1 F2 F3 : Option Edge) :
    ([some a, F0, some b, F1, some c, F2, some d, F3,
        some e] : List (Option Edge)).filterMap id =
      a :: (([F0, some b, F1, some c, F2, some d,
        F3] : List (Option Edge)).filterMap id ++ [e]) := by
  rcases F0 <;> rcases F1 <;> rcases F2 <;> rcases F3 <;> simp

lemma filterMap_headD (F : Option Edge) (x : Edge)
    (rest : List (Option Edge)) :
    ((F :: some x :: rest).filterMap id).headD default = F.getD x := by
  rcases F <;> simp

lemma filterMap_getLastD (l : List (Option Edge)) (x : Edge)
    (F : Option Edge) :
    ((l ++ [some x, F]).filterMap id).getLastD default = F.getD x := by
  rcases F with _ | f
  · simp [List.filterMap_append]
  · have : (l ++ [some x, some f] : List (Option Edge)) =
        (l ++ [some x]) ++ [some f] := by simp
    rw [this, List.filterMap_append]
    simp

lemma getLastD_map_of_ne {α β : Type} (f : α → β) {l : List α}
    (d : α) (d2 : β) (hl : l ≠ []) :
    (l.map f).getLastD d2 = f (l.getLastD d) := by
  induction l with
  | nil => exact absurd rfl hl
  | cons a t ih =>
    cases t with
    | nil => rfl
    | cons b t2 => simpa using ih (by simp)

lemma headD_map_of_ne {α β : Type} (f : α → β) {l : List α}
    (d : α) (d2 : β) (hl : l ≠ []) :
    (l.map f).headD d2 = f (l.headD d) := by
  cases l with
  | nil => exact absurd rfl hl
  | cons a t => rfl

lemma headD_append_of_ne {α : Type} {l1 l2 : List α} (d : α)
    (hl : l1 ≠ []) :
    (l1 ++ l2).headD d = l1.headD d := by
  cases l1 with
  | nil => exact absurd rfl hl
  | cons a t => rfl

lemma pitchList_single_line (a b : Point) :
    pitchList [Edge.line a b] = [a.2, b.2] := by
  simp [pitchList, vertices, Edge.firstVertex, Edge.lastVertex]

lemma pitch_bound_filterMap {lo2 hi2 : ℝ} {l : List (Option Edge)}
    (hl : ∀ e, some e ∈ l →
      (lo2 ≤ e.firstVertex.2 ∧ e.firstVertex.2 ≤ hi2) ∧
      (lo2 ≤ e.lastVertex.2 ∧ e.lastVertex.2 ≤ hi2)) :
    ∀ q ∈ pitchList (l.filterMap id), lo2 ≤ q ∧ q ≤ hi2 := by
  intro q hq
  obtain ⟨e, he, hq2⟩ := mem_pitchList_elim hq
  rw [List.mem_filterMap] at he
  obtain ⟨o, ho, hoe⟩ := he
  simp only [id] at hoe
  subst hoe
  have hbounds := hl e ho
  rcases hq2 with rfl | rfl
  · exact hbounds.1
  · exact hbounds.2

lemma outlineFrom_decomp (obj : ObjState) (es : List (Option Edge)) :
    outlineFrom obj es =
      bottomStrip (outlineTeeth obj es) obj.thickness ++
        (outlineTeeth obj es).flatten := rfl

set_option maxHeartbeats 3200000 in
/-- C4: for every successful build with positive module and `num_teeth` in
`[3, 10000]` (and non-degenerate tooth geometry: nonnegative flank slope and
flank projections within a quarter pitch, the validity envelope of spec
section 3), if `add_endings` is on then the original chain's first edge is
prepended and its last edge, translated to the rack's far end, is appended
as end caps, and the outline's total pitch-axis extent is exactly
`num_teeth × module × π`; if `add_endings` is off the rack begins and ends
mid-flank and the extent is `(num_teeth - 1) × module × π` plus the two
partial teeth `module·π/4 + module·(1+clearance)·tan α` at the ends. -/
theorem C4_outline_extent (obj : ObjState) {out : List (Option Edge)}
    (h : filletedTooth (buildM obj) obj.root_fillet obj.head_fillet
      (buildRawTooth obj) = .ok out)
    (hpft : obj.properties_from_tool = false)
    (hm : 0 < obj.module)
    (hN3 : 3 ≤ obj.num_teeth) (_hN : obj.num_teeth ≤ 10000)
    (htA : 0 ≤ Real.tan (buildAlpha obj))
    (hcv : (1 + obj.clearance) * Real.tan (buildAlpha obj) ≤ π / 4)
    (hhv : (1 + obj.head) * Real.tan (buildAlpha obj) ≤ π / 4)
    (hcge : -1 ≤ obj.clearance) (hhge : -1 ≤ obj.head) :
    buildOutline obj = .ok (outlineFrom obj out) ∧
    (obj.add_endings = true →
      outlineTeeth obj out =
        [[(out.filterMap id).getD 0 default]] ++
          dropBridge (preTeeth obj (out.filterMap id)) ++
          [[((out.filterMap id).getLastD default).translate
            ((0 : ℝ), π * buildM obj * ((obj.num_teeth : ℝ) - 1))]] ∧
      pitchExtent (outlineFrom obj out) =
        obj.num_teeth * obj.module * π) ∧
    (obj.add_endings = false →
      pitchExtent (outlineFrom obj out) =
        ((obj.num_teeth : ℝ) - 1) * obj.module * π +
          2 * (obj.module * π / 4 +
            obj.module * (1 + obj.clearance) *
              Real.tan (buildAlpha obj))) := by
  have hM : buildM obj = obj.module := buildM_eq obj hpft
  have hok : buildOutline obj = .ok (outlineFrom obj out) :=
    buildOutline_ok_of h
  have hud := toothUnit_decomp obj h
  rw [buildRawTooth_explicit,
    rawTooth_eq (buildM obj) obj.clearance obj.head (buildAlpha obj)] at h
  have hout := filletedTooth_ok h
  simp only [Edge.lastVertex] at hout
  set A := Real.tan (buildAlpha obj) with hA
  set y1 : ℝ := -buildM obj * (1 + obj.clearance) with hy1
  set y3 : ℝ := buildM obj * (1 + obj.head) with hy3
  set x1 : ℝ := -buildM obj * π / 2 with hx1
  set x2 : ℝ := -buildM obj * π / 4 + y1 * A with hx2
  set x3 : ℝ := -buildM obj * π / 4 + y3 * A with hx3
  set E0 : Edge := .line (y1, x1) (y1, x2) with hE0
  set E1 : Edge := .line (y1, x2) (y3, x3) with hE1
  set E2 : Edge := .line (y3, x3) (y3, -x3) with hE2
  set E3 : Edge := .line (y3, -x3) (y1, -x2) with hE3
  set E4 : Edge := .line (y1, -x2) (y1, -x1) with hE4
  set F0 : Option Edge := if buildM obj * obj.root_fillet = 0 then none
    else some (.arc (buildM obj * obj.root_fillet) (y1, x2)) with hF0
  set F1 : Option Edge := if buildM obj * obj.head_fillet = 0 then none
    else some (.arc (buildM obj * obj.head_fillet) (y3, x3)) with hF1
  set F2 : Option Edge := if buildM obj * obj.head_fillet = 0 then none
    else some (.arc (buildM obj * obj.head_fillet) (y3, -x3)) with hF2
  set F3 : Option Edge := if buildM obj * obj.root_fillet = 0 then none
    else some (.arc (buildM obj * obj.root_fillet) (y1, -x2)) with hF3
  set chainF : List Edge := ([F0, some E1, F1, some E2, F2, some E3,
    F3] : List (Option Edge)).filterMap id with hcF
  -- basic scalar facts
  have hM0 : 0 < buildM obj := by rw [hM]; exact hm
  have hpM : 0 < π * buildM obj := mul_pos Real.pi_pos hM0
  have hy1n : y1 ≤ 0 := by
    rw [hy1]; nlinarith [hM0, hcge]
  have hy3p : 0 ≤ y3 := by
    rw [hy3]; nlinarith [hM0, hhge]
  have h12 : x1 ≤ x2 := by
    rw [hx1, hx2, hy1]
    nlinarith [mul_le_mul_of_nonneg_left hcv hM0.le, hM0, Real.pi_pos]
  have h20 : x2 ≤ 0 := by
    rw [hx2]
    nlinarith [mul_nonpos_of_nonpos_of_nonneg hy1n htA, hM0, Real.pi_pos]
  have h23 : x2 ≤ x3 := by
    rw [hx2, hx3]
    nlinarith [mul_le_mul_of_nonneg_right (show y1 ≤ y3 by linarith) htA]
  have h30 : x3 ≤ 0 := by
    rw [hx3, hy3]
    nlinarith [mul_le_mul_of_nonneg_left hhv hM0.le, hM0, Real.pi_pos]
  have h10 : x1 ≤ 0 := by
    rw [hx1]; nlinarith [hM0, Real.pi_pos]
  have h1b : x1 < 0 := by
    rw [hx1]; nlinarith [hM0, Real.pi_pos]
  -- structural decomposition of the filleted chain
  have hsplit : out.filterMap id = E0 :: (chainF ++ [E4]) := by
    rw [hout, hcF]
    exact filterMap_ninesplit E0 E1 E2 E3 E4 F0 F1 F2 F3
  have hchainEq : toothChain (out.filterMap id) = chainF := by
    rw [toothChain, hsplit]
    simp
  have hchne : chainF ≠ [] := by
    refine List.ne_nil_of_mem (a := E1) ?_
    rw [hcF]
    exact List.mem_filterMap.2 ⟨some E1, by simp, rfl⟩
  rw [hchainEq] at hud
  have hheadc : (chainF.headD default).firstVertex.2 = x2 := by
    rw [hcF, filterMap_headD, hF0]
    by_cases hc : buildM obj * obj.root_fillet = 0
    · rw [if_pos hc]
      simp [hE1, Edge.firstVertex]
    · rw [if_neg hc]
      simp [Edge.firstVertex]
  have hlastc : (chainF.getLastD default).lastVertex.2 = -x2 := by
    rw [hcF, show ([F0, some E1, F1, some E2, F2, some E3,
        F3] : List (Option Edge)) =
      [F0, some E1, F1, some E2, F2] ++ [some E3, F3] from rfl,
      filterMap_getLastD, hF3]
    by_cases hc : buildM obj * obj.root_fillet = 0
    · rw [if_pos hc]
      simp [hE3, Edge.lastVertex]
    · rw [if_neg hc]
      simp [Edge.lastVertex]
  -- pitch bounds for the chain
  have hl7 : ∀ e, some e ∈ ([F0, some E1, F1, some E2, F2, some E3,
      F3] : List (Option Edge)) →
      (x2 ≤ e.firstVertex.2 ∧ e.firstVertex.2 ≤ -x2) ∧
      (x2 ≤ e.lastVertex.2 ∧ e.lastVertex.2 ≤ -x2) := by
    intro e he
    simp only [List.mem_cons, List.not_mem_nil, or_false] at he
    rcases he with he | he | he | he | he | he | he
    · rw [hF0] at he
      by_cases hc : buildM obj * obj.root_fillet = 0
      · rw [if_pos hc] at he; cases he
      · rw [if_neg hc] at he
        cases he
        constructor <;> constructor <;>
          simp [Edge.firstVertex, Edge.lastVertex] <;> linarith
    · cases he
      constructor <;> constructor <;>
        simp [hE1, Edge.firstVertex, Edge.lastVertex] <;> linarith
    · rw [hF1] at he
      by_cases hc : buildM obj * obj.head_fillet = 0
      · rw [if_pos hc] at he; cases he
      · rw [if_neg hc] at he
        cases he
        constructor <;> constructor <;>
          simp [Edge.firstVertex, Edge.lastVertex] <;> linarith
    · cases he
      constructor <;> constructor <;>
        simp [hE2, Edge.firstVertex, Edge.lastVertex] <;> linarith
    · rw [hF2] at he
      by_cases hc : buildM obj * obj.head_fillet = 0
      · rw [if_pos hc] at he; cases he
      · rw [if_neg hc] at he
        cases he
        constructor <;> constructor <;>
          simp [Edge.firstVertex, Edge.lastVertex] <;> linarith
    · cases he
      constructor <;> constructor <;>
        simp [hE3, Edge.firstVertex, Edge.lastVertex] <;> linarith
    · rw [hF3] at he
      by_cases hc : buildM obj * obj.root_fillet = 0
      · rw [if_pos hc] at he; cases he
      · rw [if_neg hc] at he
        cases he
        constructor <;> constructor <;>
          simp [Edge.firstVertex, Edge.lastVertex] <;> linarith
  have hbound7 : ∀ q ∈ pitchList chainF, x2 ≤ q ∧ q ≤ -x2 := by
    rw [hcF]
    exact pitch_bound_filterMap hl7
  -- pitch bounds for the tooth unit
  have hboundU : ∀ q ∈ pitchList (toothUnit (out.filterMap id)
      (buildM obj)), x2 ≤ q ∧ q ≤ -x2 + π * buildM obj := by
    rw [hud]
    intro q hq
    rw [pitchList_append, List.mem_append] at hq
    rcases hq with hq | hq
    · obtain ⟨hq1, hq2⟩ := hbound7 q hq
      exact ⟨hq1, by linarith⟩
    · rw [bridgeEdge, hchainEq, pitchList_single_line] at hq
      simp only [List.mem_cons, List.not_mem_nil, or_false] at hq
      rcases hq with rfl | rfl
      · rw [hlastc]
        constructor <;> linarith
      · have hsnd : ((chainF.headD default).firstVertex +
            ((0 : ℝ), π * buildM obj)).2 =
            (chainF.headD default).firstVertex.2 + π * buildM obj := rfl
        rw [hsnd, hheadc]
        constructor <;> linarith
  -- tiling decomposition
  have hpre : dropBridge (preTeeth obj (out.filterMap id)) =
      ((List.range (obj.num_teeth - 1)).map fun i =>
        (toothUnit (out.filterMap id) (buildM obj)).map
          (Edge.translate (i • ((0 : ℝ), π * buildM obj)))) ++
      [((toothUnit (out.filterMap id) (buildM obj)).map
          (Edge.translate ((obj.num_teeth - 1) •
            ((0 : ℝ), π * buildM obj)))).dropLast] := by
    rw [preTeeth, dropBridge_buildTeeth]
  have hlastTooth : ((toothUnit (out.filterMap id) (buildM obj)).map
      (Edge.translate ((obj.num_teeth - 1) •
        ((0 : ℝ), π * buildM obj)))).dropLast =
      chainF.map (Edge.translate ((obj.num_teeth - 1) •
        ((0 : ℝ), π * buildM obj))) := by
    rw [hud, List.map_append]
    simp
  have hcast : ((obj.num_teeth - 1 : ℕ) : ℝ) = (obj.num_teeth : ℝ) - 1 := by
    have h1 : 1 ≤ obj.num_teeth := by omega
    push_cast [h1]
    ring
  have hN2 : (3 : ℝ) ≤ (obj.num_teeth : ℝ) := by exact_mod_cast hN3
  have hsm : ∀ i : ℕ,
      ((i • ((0 : ℝ), π * buildM obj)) : Point).2 =
        i * (π * buildM obj) := by
    intro i; simp
  refine ⟨hok, ?_, ?_⟩
  · -- the add_endings branch
    intro haE
    have hts : outlineTeeth obj out =
        [[(out.filterMap id).getD 0 default]] ++
          dropBridge (preTeeth obj (out.filterMap id)) ++
          [[((out.filterMap id).getLastD default).translate
            ((0 : ℝ), π * buildM obj * ((obj.num_teeth : ℝ) - 1))]] := by
      simp [outlineTeeth, withEndings, haE]
    refine ⟨hts, ?_⟩
    have hg0 : (out.filterMap id).getD 0 default = E0 := by
      rw [hsplit]; rfl
    have hgL : (out.filterMap id).getLastD default = E4 := by
      rw [hsplit]
      show ((E0 :: chainF) ++ [E4]).getLastD default = E4
      exact List.getLastD_concat _ _ _
    rw [outlineFrom_decomp, hts, hg0, hgL]
    set eL : Edge := E4.translate ((0 : ℝ), π * buildM obj *
      ((obj.num_teeth : ℝ) - 1)) with heL
    set ts1 : List (List Edge) := [[E0]] ++
      dropBridge (preTeeth obj (out.filterMap id)) ++ [[eL]] with hts1
    set hi : ℝ := -x1 + π * buildM obj * ((obj.num_teeth : ℝ) - 1)
      with hhi
    have hlohi : x1 ≤ hi := by
      rw [hhi]
      nlinarith [mul_nonneg hpM.le
        (show (0 : ℝ) ≤ (obj.num_teeth : ℝ) - 1 by linarith), h1b]
    have hfirst : ((ts1.headD []).headD default).firstVertex.2 = x1 := by
      rw [show ts1.headD [] = [E0] by rw [hts1]; rfl]
      simp [hE0, Edge.firstVertex]
    have hlast : ((ts1.getLastD []).getLastD default).lastVertex.2 = hi := by
      rw [show ts1.getLastD [] = [eL] by
        rw [hts1]; exact List.getLastD_concat _ _ _]
      rw [show ([eL] : List Edge).getLastD default = eL from rfl, heL,
        Edge.lastVertex_translate, hE4, hhi]
      simp [Edge.lastVertex]
    have hb : ∀ q, (∃ w ∈ ts1, q ∈ pitchList w) → x1 ≤ q ∧ q ≤ hi := by
      rintro q ⟨w, hw, hq⟩
      rw [hts1, List.mem_append, List.mem_append] at hw
      rcases hw with (hw | hw) | hw
      · simp only [List.mem_singleton] at hw
        subst hw
        rw [pitchList_cons] at hq
        simp only [pitchList, vertices, List.map_nil, List.flatten_nil,
          List.mem_cons, List.not_mem_nil, or_false] at hq
        rcases hq with rfl | rfl
        · rw [hE0]
          simp only [Edge.firstVertex]
          exact ⟨le_refl _, hlohi⟩
        · rw [hE0]
          simp only [Edge.lastVertex]
          refine ⟨h12, ?_⟩
          rw [hhi]; nlinarith [h20, h1b, hpM, hN2]
      · rw [hpre, List.mem_append] at hw
        rcases hw with hw | hw
        · rw [List.mem_map] at hw
          obtain ⟨i, hir, rfl⟩ := hw
          rw [List.mem_range] at hir
          rw [pitchList_map_translate, List.mem_map] at hq
          obtain ⟨s, hs, rfl⟩ := hq
          obtain ⟨hs1, hs2⟩ := hboundU s hs
          rw [hsm i]
          have hi1 : (i : ℝ) + 1 ≤ (obj.num_teeth : ℝ) - 1 := by
            have hle : (i : ℝ) + 1 ≤ ((obj.num_teeth - 1 : ℕ) : ℝ) := by
              exact_mod_cast Nat.succ_le_of_lt hir
            rw [hcast] at hle; exact hle
          have hnn : 0 ≤ (i : ℝ) * (π * buildM obj) :=
            mul_nonneg (Nat.cast_nonneg i) hpM.le
          constructor
          · linarith [h12]
          · rw [hhi]
            nlinarith [hs2, hi1, hpM, h12]
        · simp only [List.mem_singleton] at hw
          subst hw
          rw [hlastTooth, pitchList_map_translate, List.mem_map] at hq
          obtain ⟨s, hs, rfl⟩ := hq
          obtain ⟨hs1, hs2⟩ := hbound7 s hs
          rw [hsm, hcast]
          constructor
          · nlinarith [hpM, hN2, h12]
          · rw [hhi]; nlinarith [hpM, h12]
      · simp only [List.mem_singleton] at hw
        subst hw
        rw [heL, pitchList_cons] at hq
        simp only [pitchList, vertices, List.map_nil, List.flatten_nil,
          List.mem_cons, List.not_mem_nil, or_false] at hq
        rcases hq with rfl | rfl
        · rw [Edge.firstVertex_translate, hE4]
          simp only [Edge.firstVertex, Prod.snd_add]
          constructor
          · nlinarith [hpM, hN2, h12, h20, h1b]
          · rw [hhi]; nlinarith [h12]
        · rw [Edge.lastVertex_translate, hE4]
          simp only [Edge.lastVertex, Prod.snd_add]
          constructor
          · rw [← hhi]; exact hlohi
          · rw [hhi]
    rw [pitchExtent_outline ts1 obj.thickness x1 hi hlohi hfirst hlast hb,
      hhi, hx1, hM]
    ring
  · -- the no-endings branch
    intro haE
    have hts : outlineTeeth obj out =
        dropBridge (preTeeth obj (out.filterMap id)) := by
      simp [outlineTeeth, withEndings, haE]
    rw [outlineFrom_decomp, hts, hpre, hlastTooth]
    obtain ⟨k, hk⟩ : ∃ k, obj.num_teeth - 1 = k + 1 :=
      ⟨obj.num_teeth - 2, by omega⟩
    set chainT : List Edge := chainF.map (Edge.translate
      ((obj.num_teeth - 1) • ((0 : ℝ), π * buildM obj))) with hchT
    set ts2 : List (List Edge) := ((List.range (obj.num_teeth - 1)).map
      fun i => (toothUnit (out.filterMap id) (buildM obj)).map
        (Edge.translate (i • ((0 : ℝ), π * buildM obj)))) ++ [chainT]
      with hts2
    set hi2 : ℝ := -x2 + ((obj.num_teeth : ℝ) - 1) * (π * buildM obj)
      with hhi2
    have hlohi2 : x2 ≤ hi2 := by
      rw [hhi2]; nlinarith [hpM, hN2, h20]
    have hrne : ((List.range (obj.num_teeth - 1)).map
        fun i => (toothUnit (out.filterMap id) (buildM obj)).map
          (Edge.translate (i • ((0 : ℝ), π * buildM obj)))) ≠
        ([] : List (List Edge)) := by
      simp [hk]
    have hfirst2 : ((ts2.headD []).headD default).firstVertex.2 = x2 := by
      rw [hts2, headD_append_of_ne _ hrne, hk, List.range_succ_eq_map]
      simp only [List.map_cons, List.headD_cons, zero_smul,
        wire_translate_zero]
      rw [hud, headD_append_of_ne default hchne]
      exact hheadc
    have hlast2 : ((ts2.getLastD []).getLastD default).lastVertex.2 =
        hi2 := by
      rw [hts2, List.getLastD_concat, hchT,
        getLastD_map_of_ne _ default default hchne,
        Edge.lastVertex_translate, Prod.snd_add, hlastc, hsm, hcast,
        hhi2]
    have hb2 : ∀ q, (∃ w ∈ ts2, q ∈ pitchList w) →
        x2 ≤ q ∧ q ≤ hi2 := by
      rintro q ⟨w, hw, hq⟩
      rw [hts2, List.mem_append] at hw
      rcases hw with hw | hw
      · rw [List.mem_map] at hw
        obtain ⟨i, hir, rfl⟩ := hw
        rw [List.mem_range] at hir
        rw [pitchList_map_translate, List.mem_map] at hq
        obtain ⟨s, hs, rfl⟩ := hq
        obtain ⟨hs1, hs2⟩ := hboundU s hs
        rw [hsm i]
        have hi1 : (i : ℝ) + 1 ≤ (obj.num_teeth : ℝ) - 1 := by
          have hle : (i : ℝ) + 1 ≤ ((obj.num_teeth - 1 : ℕ) : ℝ) := by
            exact_mod_cast Nat.succ_le_of_lt hir
          rw [hcast] at hle; exact hle
        have hnn : 0 ≤ (i : ℝ) * (π * buildM obj) :=
          mul_nonneg (Nat.cast_nonneg i) hpM.le
        constructor
        · linarith
        · rw [hhi2]
          nlinarith [hs2, hi1, hpM]
      · simp only [List.mem_singleton] at hw
        subst hw
        rw [hchT, pitchList_map_translate, List.mem_map] at hq
        obtain ⟨s, hs, rfl⟩ := hq
        obtain ⟨hs1, hs2⟩ := hbound7 s hs
        rw [hsm, hcast]
        constructor
        · nlinarith [hpM, hN2]
        · rw [hhi2]; nlinarith [hpM]
    rw [pitchExtent_outline ts2 obj.thickness x2 hi2 hlohi2 hfirst2
      hlast2 hb2, hhi2, hx2, hy1, hM]
    ring

lemma demoObj_tan_zero : Real.tan (buildAlpha demoObj) = 0 := by
  rw [show buildAlpha demoObj = 0 by
    simp [buildAlpha, demoObj]]
  exact Real.tan_zero

theorem C4_outline_extent_witness :
    (filletedTooth (buildM demoObj) demoObj.root_fillet
      demoObj.head_fillet (buildRawTooth demoObj) = .ok demoFilleted) ∧
    demoObj.properties_from_tool = false ∧ 0 < demoObj.module ∧
    3 ≤ demoObj.num_teeth ∧ demoObj.num_teeth ≤ 10000 ∧
    0 ≤ Real.tan (buildAlpha demoObj) ∧
    (1 + demoObj.clearance) * Real.tan (buildAlpha demoObj) ≤ π / 4 ∧
    (1 + demoObj.head) * Real.tan (buildAlpha demoObj) ≤ π / 4 ∧
    -1 ≤ demoObj.clearance ∧ -1 ≤ demoObj.head ∧
    (buildOutline demoObj = .ok (outlineFrom demoObj demoFilleted) ∧
    (demoObj.add_endings = true →
      outlineTeeth demoObj demoFilleted =
        [[(demoFilleted.filterMap id).getD 0 default]] ++
          dropBridge (preTeeth demoObj (demoFilleted.filterMap id)) ++
          [[((demoFilleted.filterMap id).getLastD default).translate
            ((0 : ℝ), π * buildM demoObj *
              ((demoObj.num_teeth : ℝ) - 1))]] ∧
      pitchExtent (outlineFrom demoObj demoFilleted) =
        demoObj.num_teeth * demoObj.module * π) ∧
    (demoObj.add_endings = false →
      pitchExtent (outlineFrom demoObj demoFilleted) =
        ((demoObj.num_teeth : ℝ) - 1) * demoObj.module * π +
          2 * (demoObj.module * π / 4 +
            demoObj.module * (1 + demoObj.clearance) *
              Real.tan (buildAlpha demoObj)))) :=
  have htA : 0 ≤ Real.tan (buildAlpha demoObj) := by
    rw [demoObj_tan_zero]
  have hcv : (1 + demoObj.clearance) * Real.tan (buildAlpha demoObj) ≤
      π / 4 := by
    rw [demoObj_tan_zero, mul_zero]
    linarith [Real.pi_pos]
  have hhv : (1 + demoObj.head) * Real.tan (buildAlpha demoObj) ≤
      π / 4 := by
    rw [demoObj_tan_zero, mul_zero]
    linarith [Real.pi_pos]
  ⟨demo_fillet_ok, rfl, by norm_num [demoObj], by norm_num [demoObj],
    by norm_num [demoObj], htA, hcv, hhv, by norm_num [demoObj],
    by norm_num [demoObj],
    C4_outline_extent demoObj demo_fillet_ok rfl (by norm_num [demoObj])
      (by norm_num [demoObj]) (by norm_num [demoObj]) htA hcv hhv
      (by norm_num [demoObj]) (by norm_num [demoObj])⟩

end GearRack
